import Mathlib

/-!
Verification of the sandbox execution engine specification.

The repository ships the test suite of the sandbox engine
(`vumi/application/tests/test_sandbox.py`) but not the engine itself
(`vumi/application/sandbox.py`).  The data model and the operations below are
therefore modelled from the specification: the line-framed JSON Command
Message wire format, the key-value / outbound / logging resources, the
framer-dispatcher with its fallback handler, and the session lifecycle.
-/

/-- Modelled from the spec: the supported value types of the wire protocol —
strings, numbers, booleans, null, and nested mappings and sequences of the
same.  Numbers are modelled as integers. -/
inductive JValue where
  | null : JValue
  | bool (b : Bool) : JValue
  | num (n : Int) : JValue
  | str (s : String) : JValue
  | arr (xs : List JValue) : JValue
  | obj (fields : List (String × JValue)) : JValue

/-- Decimal digit character for a value below ten. -/
def digitChar : Nat → Char
  | 0 => '0'
  | 1 => '1'
  | 2 => '2'
  | 3 => '3'
  | 4 => '4'
  | 5 => '5'
  | 6 => '6'
  | 7 => '7'
  | 8 => '8'
  | _ => '9'

/-- Lower-case hexadecimal digit character for a value below sixteen. -/
def hexDigitChar : Nat → Char
  | 0 => '0'
  | 1 => '1'
  | 2 => '2'
  | 3 => '3'
  | 4 => '4'
  | 5 => '5'
  | 6 => '6'
  | 7 => '7'
  | 8 => '8'
  | 9 => '9'
  | 10 => 'a'
  | 11 => 'b'
  | 12 => 'c'
  | 13 => 'd'
  | 14 => 'e'
  | _ => 'f'

/-- Whether a character is a decimal digit. -/
def isDigitC (c : Char) : Bool :=
  decide (48 ≤ c.toNat) && decide (c.toNat ≤ 57)

/-- Decimal representation of a natural number, most significant digit
first. -/
def natDigits (n : Nat) : List Char :=
  if n < 10 then [digitChar n]
  else natDigits (n / 10) ++ [digitChar (n % 10)]
termination_by n
decreasing_by exact Nat.div_lt_self (by omega) (by omega)

/-- Decimal representation of an integer. -/
def serNum (z : Int) : List Char :=
  if z < 0 then '-' :: natDigits z.natAbs else natDigits z.toNat

/-- JSON escape of a single character inside a quoted string: quote and
backslash are escaped, control characters use a four-hex-digit escape, all
other characters stand for themselves. -/
def escapeChar (c : Char) : List Char :=
  if c = '"' then ['\\', '"']
  else if c = '\\' then ['\\', '\\']
  else if c.toNat < 32 then
    ['\\', 'u', '0', '0', hexDigitChar (c.toNat / 16), hexDigitChar (c.toNat % 16)]
  else [c]

/-- JSON escape of a character sequence. -/
def escapeStr : List Char → List Char
  | [] => []
  | c :: cs => escapeChar c ++ escapeStr cs

mutual

/-- Modelled from the spec: the one-line serialization of a wire value
(compact JSON). -/
def serV : JValue → List Char
  | JValue.null => ['n', 'u', 'l', 'l']
  | JValue.bool true => ['t', 'r', 'u', 'e']
  | JValue.bool false => ['f', 'a', 'l', 's', 'e']
  | JValue.num z => serNum z
  | JValue.str s => '"' :: (escapeStr s.data ++ ['"'])
  | JValue.arr xs => '[' :: (serItems xs ++ [']'])
  | JValue.obj kvs => '{' :: (serFields kvs ++ ['}'])

/-- Comma-separated serialization of array items. -/
def serItems : List JValue → List Char
  | [] => []
  | [x] => serV x
  | x :: xs => serV x ++ ',' :: serItems xs

/-- Comma-separated serialization of object fields. -/
def serFields : List (String × JValue) → List Char
  | [] => []
  | [(k, v)] => '"' :: (escapeStr k.data ++ '"' :: ':' :: serV v)
  | (k, v) :: kvs =>
      ('"' :: (escapeStr k.data ++ '"' :: ':' :: serV v)) ++ ',' :: serFields kvs

end

/-- Modelled from the spec: `serialize(CommandMessage) -> line`, the one-line
wire form of a value. -/
def serializeLine (v : JValue) : String :=
  String.mk (serV v)

/-- Value of a hexadecimal digit character. -/
def hexVal (c : Char) : Option Nat :=
  if 48 ≤ c.toNat ∧ c.toNat ≤ 57 then some (c.toNat - 48)
  else if 97 ≤ c.toNat ∧ c.toNat ≤ 102 then some (c.toNat - 87)
  else if 65 ≤ c.toNat ∧ c.toNat ≤ 70 then some (c.toNat - 55)
  else none

/-- Split a character sequence into its maximal leading run of decimal
digits and the remainder. -/
def takeDigits : List Char → List Char × List Char
  | [] => ([], [])
  | c :: cs =>
    if isDigitC c then
      ((takeDigits cs).1.cons c, (takeDigits cs).2)
    else ([], c :: cs)

/-- Accumulate the value of a run of decimal digit characters. -/
def digitsToNat (acc : Nat) : List Char → Nat
  | [] => acc
  | c :: cs => digitsToNat (acc * 10 + (c.toNat - 48)) cs

/-- Parse a nonempty run of decimal digits into a natural number. -/
def parseNatChars (cs : List Char) : Option (Nat × List Char) :=
  match takeDigits cs with
  | ([], _) => none
  | (ds, r) => some (digitsToNat 0 ds, r)

/-- Consume an expected literal character sequence. -/
def dropLit : List Char → List Char → Option (List Char)
  | [], cs => some cs
  | _ :: _, [] => none
  | p :: ps, c :: cs => if c = p then dropLit ps cs else none

mutual

/-- Parse the body of a JSON string (after the opening quote) up to and
including the closing quote, undoing escapes. -/
def parseStrChars : List Char → Option (List Char × List Char)
  | [] => none
  | c :: cs =>
    if c = '"' then some ([], cs)
    else if c = '\\' then parseEsc cs
    else (parseStrChars cs).map (fun p => (c :: p.1, p.2))
termination_by cs => cs.length
decreasing_by all_goals simp_all <;> omega

/-- Parse the character following a backslash escape. -/
def parseEsc : List Char → Option (List Char × List Char)
  | [] => none
  | e :: cs2 =>
    if e = '"' then (parseStrChars cs2).map (fun p => ('"' :: p.1, p.2))
    else if e = '\\' then (parseStrChars cs2).map (fun p => ('\\' :: p.1, p.2))
    else if e = 'u' then parseHex4 cs2
    else none
termination_by cs => cs.length
decreasing_by all_goals simp_all <;> omega

/-- Parse a four-hex-digit character escape. -/
def parseHex4 : List Char → Option (List Char × List Char)
  | h1 :: h2 :: h3 :: h4 :: cs3 =>
    (match hexVal h1, hexVal h2, hexVal h3, hexVal h4 with
     | some a, some b, some c2, some d =>
       (parseStrChars cs3).map
         (fun p => (Char.ofNat (((a * 16 + b) * 16 + c2) * 16 + d) :: p.1, p.2))
     | _, _, _, _ => none)
  | _ => none
termination_by cs => cs.length
decreasing_by all_goals simp_all <;> omega

end

mutual

/-- Modelled from the spec: `parse(line)`, the inverse of serialization.
Fuel-indexed recursive-descent parser for one-line JSON. -/
def parseVal : Nat → List Char → Option (JValue × List Char)
  | 0, _ => none
  | _ + 1, [] => none
  | f + 1, c :: cs =>
    if c = '"' then
      (parseStrChars cs).map (fun p => (JValue.str (String.mk p.1), p.2))
    else if c = '[' then
      (parseElems f cs).map (fun p => (JValue.arr p.1, p.2))
    else if c = '{' then
      (parseFields f cs).map (fun p => (JValue.obj p.1, p.2))
    else if c = '-' then
      (parseNatChars cs).map (fun p => (JValue.num (-(p.1 : Int)), p.2))
    else if isDigitC c then
      (parseNatChars (c :: cs)).map (fun p => (JValue.num (p.1 : Int), p.2))
    else if c = 'n' then
      (dropLit ['u', 'l', 'l'] cs).map (fun r => (JValue.null, r))
    else if c = 't' then
      (dropLit ['r', 'u', 'e'] cs).map (fun r => (JValue.bool true, r))
    else if c = 'f' then
      (dropLit ['a', 'l', 's', 'e'] cs).map (fun r => (JValue.bool false, r))
    else none

/-- Parse array items up to and including the closing bracket. -/
def parseElems : Nat → List Char → Option (List JValue × List Char)
  | 0, _ => none
  | _ + 1, [] => none
  | f + 1, c :: cs =>
    if c = ']' then some ([], cs)
    else
      match parseVal f (c :: cs) with
      | none => none
      | some (v, r) =>
        match r with
        | ',' :: rest => (parseElems f rest).map (fun p => (v :: p.1, p.2))
        | ']' :: rest => some ([v], rest)
        | _ => none

/-- Parse object fields up to and including the closing brace. -/
def parseFields : Nat → List Char → Option (List (String × JValue) × List Char)
  | 0, _ => none
  | _ + 1, [] => none
  | f + 1, c :: cs =>
    if c = '}' then some ([], cs)
    else if c = '"' then
      match parseStrChars cs with
      | none => none
      | some (k, r1) =>
        match r1 with
        | ':' :: r2 =>
          match parseVal f r2 with
          | none => none
          | some (v, r3) =>
            match r3 with
            | '}' :: rest => some ([(String.mk k, v)], rest)
            | ',' :: rest =>
              (parseFields f rest).map (fun p => ((String.mk k, v) :: p.1, p.2))
            | _ => none
        | _ => none
    else none

end

/-- Modelled from the spec: parse of one line of text into a wire value;
fails on text that is not well-formed one-line JSON. -/
def parseLine (s : String) : Option JValue :=
  match parseVal (2 * s.data.length + 2) s.data with
  | some (v, []) => some v
  | _ => none

mutual

/-- Parser fuel bound for a value. -/
def sizeV : JValue → Nat
  | JValue.null => 1
  | JValue.bool _ => 1
  | JValue.num _ => 1
  | JValue.str _ => 1
  | JValue.arr xs => 1 + sizeL xs
  | JValue.obj kvs => 1 + sizeKV kvs

/-- Parser fuel bound for array items. -/
def sizeL : List JValue → Nat
  | [] => 1
  | x :: xs => 1 + sizeV x + sizeL xs

/-- Parser fuel bound for object fields. -/
def sizeKV : List (String × JValue) → Nat
  | [] => 1
  | (_, v) :: kvs => 1 + sizeV v + sizeKV kvs

end

/-- Whether a character sequence does not begin with a decimal digit. -/
def headNotDigit : List Char → Bool
  | [] => true
  | c :: _ => !(isDigitC c)

/-- Association-list lookup by string key. -/
def lookupA {α : Type} : List (String × α) → String → Option α
  | [], _ => none
  | (k, v) :: rest, key => if k = key then some v else lookupA rest key

/-- Field lookup on a wire value: defined only for mappings. -/
def getField (m : JValue) (key : String) : Option JValue :=
  match m with
  | JValue.obj fields => lookupA fields key
  | _ => none

/-- Modelled from the spec: a Command Message is a mapping with a string
`cmd` field. -/
def isCmdMsg (m : JValue) : Bool :=
  match getField m "cmd" with
  | some (JValue.str _) => true
  | _ => false

/-- Modelled from the spec: parse of a line into a Command Message; fails if
the line is not well-formed structured data or lacks a `cmd` field. -/
def parseCmdMsg (s : String) : Option JValue :=
  match parseLine s with
  | some v => if isCmdMsg v then some v else none
  | none => none

/-- Modelled from the spec: the `cmd` of a message; a message without a
string `cmd` field is treated as the unknown command. -/
def cmdOf (m : JValue) : String :=
  match getField m "cmd" with
  | some (JValue.str s) => s
  | _ => "unknown"

/-- The correlation token of a message (null when absent). -/
def cmdIdOf (m : JValue) : JValue :=
  (getField m "cmd_id").getD JValue.null

/-- Modelled from the spec: a reply Command Message echoing the originating
`cmd_id`, carrying a `success` boolean and further reply-payload fields. -/
def mkReply (m : JValue) (success : Bool) (extra : List (String × JValue)) : JValue :=
  JValue.obj (("cmd", JValue.str (cmdOf m)) :: ("cmd_id", cmdIdOf m)
    :: ("success", JValue.bool success) :: extra)

/-- A fresh Command Message with the given `cmd`, correlation token and
argument fields. -/
def mkCmd (c : String) (cid : String) (args : List (String × JValue)) : JValue :=
  JValue.obj (("cmd", JValue.str c) :: ("cmd_id", JValue.str cid) :: args)

/-- Modelled from the spec: the fallback failure report for an unknown
command. -/
def fallbackMsg (c sid : String) : String :=
  "Resource fallback: unknown command '" ++ c ++ "' received from sandbox '"
    ++ sid ++ "'"

/-- The namespace part of a dot-qualified `cmd` (everything before the first
dot; the whole string when there is no dot). -/
def beforeDot : List Char → List Char
  | [] => []
  | c :: cs => if c = '.' then [] else c :: beforeDot cs

/-- The namespace a `cmd` is routed by. -/
def nsOf (c : String) : String :=
  String.mk (beforeDot c.data)

/-- The action part of a `cmd` (everything after the last dot; the whole
string when there is no dot). -/
def actionOf (c : String) : String :=
  String.mk ((c.data.reverse.takeWhile (fun ch => ch ≠ '.')).reverse)

/-- The host-side key-value backend, as a finite map from storage keys to
stored strings. -/
def Store : Type := String → Option String

/-- The empty key-value backend. -/
def emptyStore : Store := fun _ => none

/-- Point update of the key-value backend (`none` removes the key). -/
def storeSet (st : Store) (k : String) (v : Option String) : Store :=
  fun key => if key = k then v else st key

/-- Modelled from the spec: per-sandbox scoping of storage keys under the
configured storage name, as `<storage-name>:sandboxes:<sandbox-id>:<key>`. -/
def sandboxedKey (pfx sid k : String) : String :=
  pfx ++ ":sandboxes:" ++ sid ++ ":" ++ k

/-- Modelled from the spec: the per-sandbox operation-count key, as
`<storage-name>:count:<sandbox-id>`. -/
def countKey (pfx sid : String) : String :=
  pfx ++ ":count:" ++ sid

/-- Decimal string of an integer. -/
def stringOfInt (z : Int) : String :=
  String.mk (serNum z)

/-- Parse of a decimal integer string. -/
def intOfString (s : String) : Option Int :=
  match s.data with
  | [] => none
  | c :: cs =>
    if c = '-' then
      (match parseNatChars cs with
       | some (n, []) => some (-(n : Int))
       | _ => none)
    else
      (match parseNatChars (c :: cs) with
       | some (n, []) => some ((n : Int))
       | _ => none)

/-- Integer value of an optional counter cell (absent or unreadable counts
as zero, as for a fresh counter). -/
def intOfStringD (o : Option String) : Int :=
  match o with
  | none => 0
  | some s => (intOfString s).getD 0

/-- Modelled from the spec: an outbound reply message handed to the host's
message-dispatch collaborator; `sessionEvent` is the forced
session-termination flag (`none` means the session continues). -/
structure OutboundMsg where
  content : String
  inReplyTo : String
  sessionEvent : Option String
deriving DecidableEq

/-- Modelled from the spec: the host-side state a Session's Resources act
on: the key-value backend, the outbound-dispatch sink and the logging
collaborator. -/
structure SessionSt where
  store : Store
  outbound : List OutboundMsg
  logs : List (String × String × String)

/-- A fresh host-side state. -/
def emptySt : SessionSt :=
  { store := emptyStore, outbound := [], logs := [] }

/-- Modelled from the spec: the pluggable capability kinds — key-value
storage, outbound replies and logging. -/
inductive ResourceKind where
  | redis (pfx : String) : ResourceKind
  | outbound : ResourceKind
  | logging : ResourceKind

/-- Modelled from the spec: the finite action table of each Resource
kind. -/
def supportedActions : ResourceKind → List String
  | ResourceKind.redis _ => ["set", "get", "delete"]
  | ResourceKind.outbound => ["reply_to"]
  | ResourceKind.logging => ["info", "debug", "warning", "error"]

/-- Modelled from the spec: `dispatchRequest` of the key-value resource.
`set` stores the JSON serialization of the value under the sandbox-scoped
key and increments the per-sandbox counter; `get` returns the decoded
stored value (null for a missing key); `delete` removes the key, reports
whether it existed, and decrements the counter exactly when a key was
removed. -/
def redisDispatchRequest (pfx sid : String) (store : Store) (m : JValue) :
    Store × JValue :=
  let act := actionOf (cmdOf m)
  if act = "set" then
    match getField m "key", getField m "value" with
    | some (JValue.str k), some v =>
      let skey := sandboxedKey pfx sid k
      let ckey := countKey pfx sid
      let cnt := intOfStringD (store ckey) + 1
      (storeSet (storeSet store skey (some (serializeLine v))) ckey
         (some (stringOfInt cnt)),
       mkReply m true [])
    | _, _ => (store, mkReply m false [])
  else if act = "get" then
    match getField m "key" with
    | some (JValue.str k) =>
      (match store (sandboxedKey pfx sid k) with
       | none => (store, mkReply m true [("value", JValue.null)])
       | some s =>
         match parseLine s with
         | some v => (store, mkReply m true [("value", v)])
         | none => (store, mkReply m false []))
    | _ => (store, mkReply m false [])
  else if act = "delete" then
    match getField m "key" with
    | some (JValue.str k) =>
      let skey := sandboxedKey pfx sid k
      let ckey := countKey pfx sid
      let existed := (store skey).isSome
      let store1 := storeSet store skey none
      let store2 :=
        if existed then
          storeSet store1 ckey (some (stringOfInt (intOfStringD (store ckey) - 1)))
        else store1
      (store2, mkReply m true [("existed", JValue.bool existed)])
    | _ => (store, mkReply m false [])
  else (store, mkReply m false [])

/-- Modelled from the spec: `dispatchRequest` of the outbound-reply
resource.  Constructs an outbound reply message from `content` and
`in_reply_to` with an optional continue-session flag (default: continue)
and hands it to the dispatch sink; replies success once handed off. -/
def outboundDispatchRequest (st : SessionSt) (m : JValue) : SessionSt × JValue :=
  if actionOf (cmdOf m) = "reply_to" then
    match getField m "content", getField m "in_reply_to" with
    | some (JValue.str content), some (JValue.str irt) =>
      let contSession :=
        match getField m "continue_session" with
        | some (JValue.bool b) => b
        | _ => true
      let out : OutboundMsg :=
        { content := content, inReplyTo := irt,
          sessionEvent := if contSession then none else some "close" }
      ({ st with outbound := st.outbound ++ [out] }, mkReply m true [])
    | _, _ => (st, mkReply m false [])
  else (st, mkReply m false [])

/-- Modelled from the spec: `dispatchRequest` of the logging resource.
Forwards the supplied text to the host's logging collaborator tagged with
the sandbox identifier and severity. -/
def loggingDispatchRequest (sid : String) (st : SessionSt) (m : JValue) :
    SessionSt × JValue :=
  let act := actionOf (cmdOf m)
  match getField m "msg" with
  | some (JValue.str text) =>
    ({ st with logs := st.logs ++ [(sid, act, text)] }, mkReply m true [])
  | _ => (st, mkReply m false [])

/-- Modelled from the spec: routing of one parsed Command Message through
the Registry.  If the namespace before the first dot of `cmd` matches a
registered Resource that supports the action, the Resource is invoked;
otherwise the fallback handler produces exactly one failure report and a
`success = false` reply echoing the originating `cmd_id`.  Returns the new
state, the error reports surfaced, and the reply written back. -/
def dispatchParsed (reg : List (String × ResourceKind)) (sid : String)
    (st : SessionSt) (m : JValue) : SessionSt × List String × JValue :=
  let c := cmdOf m
  match lookupA reg (nsOf c) with
  | some rk =>
    if (supportedActions rk).contains (actionOf c) then
      match rk with
      | ResourceKind.redis pfx =>
        let r := redisDispatchRequest pfx sid st.store m
        ({ st with store := r.1 }, [], r.2)
      | ResourceKind.outbound =>
        let r := outboundDispatchRequest st m
        (r.1, [], r.2)
      | ResourceKind.logging =>
        let r := loggingDispatchRequest sid st m
        (r.1, [], r.2)
    else (st, [fallbackMsg c sid], mkReply m false [])
  | none => (st, [fallbackMsg c sid], mkReply m false [])

/-- Whether the handling of a standard-output line fails: the line does not
parse, or its command matches no registered Resource namespace or no
supported action. -/
def lineFails (reg : List (String × ResourceKind)) (line : String) : Bool :=
  match parseLine line with
  | none => true
  | some m =>
    match lookupA reg (nsOf (cmdOf m)) with
    | none => true
    | some rk => !((supportedActions rk).contains (actionOf (cmdOf m)))

/-- Whether a parsed command matches no registered Resource namespace or no
supported action, so that the fallback handler responds. -/
def routeMisses (reg : List (String × ResourceKind)) (c : String) : Bool :=
  match lookupA reg (nsOf c) with
  | none => true
  | some rk => !((supportedActions rk).contains (actionOf c))

/-- Modelled from the spec: framing and dispatch of one standard-output
line.  A line that fails to parse is treated identically to an unknown
command: fallback path, `success = false` reply, reported, non-fatal. -/
def dispatchLine (reg : List (String × ResourceKind)) (sid : String)
    (st : SessionSt) (line : String) : SessionSt × List String × JValue :=
  match parseLine line with
  | some m => dispatchParsed reg sid st m
  | none =>
    (st, [fallbackMsg "unknown" sid],
     JValue.obj [("cmd", JValue.str "unknown"), ("cmd_id", JValue.null),
       ("success", JValue.bool false)])

/-- Drain the child's standard-output lines through the dispatcher,
accumulating error reports and replies. -/
def runDispatchLoop (reg : List (String × ResourceKind)) (sid : String) :
    SessionSt → List String → SessionSt × List String × List JValue
  | st, [] => (st, [], [])
  | st, line :: rest =>
    let r1 := dispatchLine reg sid st line
    let r2 := runDispatchLoop reg sid r1.1 rest
    (r2.1, r1.2.1 ++ r2.2.1, r1.2.2 :: r2.2.2)

/-- Modelled from the spec: the observable behavior of one child-process
run — the lines it writes to standard output and standard error, and
whether (and when, in wall-clock units) it exits on its own, with which
exit code.  `runTime = none` models a child that never exits. -/
structure ChildBehavior where
  stdoutLines : List String
  stderrLines : List String
  runTime : Option Nat
  exitCode : Nat

/-- Modelled from the spec: the terminal result of a Session — a tagged
exit status or a distinguished terminated-by-signal result. -/
inductive ExitStatus where
  | exited (code : Nat) : ExitStatus
  | killedBySignal : ExitStatus
deriving DecidableEq

/-- The observable outcome of one Sandbox Session run. -/
structure SessionOutcome where
  result : ExitStatus
  finalSt : SessionSt
  cmdReports : List String
  stderrReports : List String
  replies : List JValue

/-- Modelled from the spec: one Sandbox Session run.  Standard-output lines
are drained through the dispatcher; each standard-error line becomes its
own sandbox-diagnostic report; the Session resolves with the child's exit
status if it exits within the timeout and with a signal-termination result
if it is killed at timeout expiry. -/
def runSession (reg : List (String × ResourceKind)) (sid : String)
    (timeout : Nat) (st0 : SessionSt) (child : ChildBehavior) : SessionOutcome :=
  let r := runDispatchLoop reg sid st0 child.stdoutLines
  { result :=
      match child.runTime with
      | some t => if t ≤ timeout then ExitStatus.exited child.exitCode
                  else ExitStatus.killedBySignal
      | none => ExitStatus.killedBySignal
    finalSt := r.1
    cmdReports := r.2.1
    stderrReports := child.stderrLines
    replies := r.2.2 }

theorem digitChar_digit {n : Nat} (h : n < 10) : isDigitC (digitChar n) = true := by
  interval_cases n <;> decide

theorem digitChar_val {n : Nat} (h : n < 10) : (digitChar n).toNat - 48 = n := by
  interval_cases n <;> decide

theorem natDigits_ne_nil (n : Nat) : natDigits n ≠ [] := by
  rw [natDigits]
  split <;> simp

theorem natDigits_digits (n : Nat) : ∀ c ∈ natDigits n, isDigitC c = true := by
  induction n using Nat.strong_induction_on with
  | _ n ih =>
    rw [natDigits]
    split
    · intro c hc
      simp only [List.mem_singleton] at hc
      subst hc
      exact digitChar_digit (by omega)
    · intro c hc
      rcases List.mem_append.mp hc with h1 | h2
      · exact ih (n / 10) (Nat.div_lt_self (by omega) (by omega)) c h1
      · simp only [List.mem_singleton] at h2
        subst h2
        exact digitChar_digit (Nat.mod_lt _ (by omega))

theorem digitsToNat_nil (acc : Nat) : digitsToNat acc [] = acc := rfl

theorem digitsToNat_cons (acc : Nat) (c : Char) (cs : List Char) :
    digitsToNat acc (c :: cs) = digitsToNat (acc * 10 + (c.toNat - 48)) cs := rfl

theorem digitsToNat_append (acc : Nat) (xs ys : List Char) :
    digitsToNat acc (xs ++ ys) = digitsToNat (digitsToNat acc xs) ys := by
  induction xs generalizing acc with
  | nil => rfl
  | cons c cs ih =>
    show digitsToNat (acc * 10 + (c.toNat - 48)) (cs ++ ys) = _
    rw [ih]
    rfl

theorem digitsToNat_natDigits (n : Nat) :
    ∀ acc, ∃ p, 0 < p ∧ digitsToNat acc (natDigits n) = acc * p + n := by
  induction n using Nat.strong_induction_on with
  | _ n ih =>
    intro acc
    rw [natDigits]
    split
    · refine ⟨10, by omega, ?_⟩
      rw [digitsToNat_cons, digitsToNat_nil]
      have := digitChar_val (show n < 10 by omega)
      omega
    · obtain ⟨p, hp, hq⟩ := ih (n / 10) (Nat.div_lt_self (by omega) (by omega)) acc
      refine ⟨p * 10, by omega, ?_⟩
      rw [digitsToNat_append, hq, digitsToNat_cons, digitsToNat_nil]
      have := digitChar_val (show n % 10 < 10 from Nat.mod_lt _ (by omega))
      have := Nat.div_add_mod n 10
      have : (acc * p + n / 10) * 10 + n % 10 = acc * (p * 10) + n := by ring_nf; omega
      omega

theorem digitsToNat_natDigits_zero (n : Nat) : digitsToNat 0 (natDigits n) = n := by
  obtain ⟨p, _, hq⟩ := digitsToNat_natDigits n 0
  simpa using hq

theorem takeDigits_of_digits (ds rest : List Char)
    (hds : ∀ c ∈ ds, isDigitC c = true) (hrest : headNotDigit rest = true) :
    takeDigits (ds ++ rest) = (ds, rest) := by
  induction ds with
  | nil =>
    cases rest with
    | nil => rfl
    | cons c cs =>
      simp only [headNotDigit, Bool.not_eq_true'] at hrest
      simp [takeDigits, hrest]
  | cons d ds ih =>
    have hd : isDigitC d = true := hds d (by simp)
    have ih' := ih (fun c hc => hds c (by simp [hc]))
    simp [takeDigits, hd, ih']

theorem parseNatChars_natDigits (n : Nat) (rest : List Char)
    (hrest : headNotDigit rest = true) :
    parseNatChars (natDigits n ++ rest) = some (n, rest) := by
  have htd := takeDigits_of_digits (natDigits n) rest (natDigits_digits n) hrest
  obtain ⟨c, cs, hcons⟩ := List.exists_cons_of_ne_nil (natDigits_ne_nil n)
  rw [parseNatChars, htd]
  rw [hcons]
  simp [← hcons, digitsToNat_natDigits_zero]

theorem dropLit_append (ps rest : List Char) : dropLit ps (ps ++ rest) = some rest := by
  induction ps with
  | nil => rfl
  | cons p ps ih => simp [dropLit, ih]

theorem hexVal_hexDigitChar {d : Nat} (h : d < 16) :
    hexVal (hexDigitChar d) = some d := by
  interval_cases d <;> decide

theorem isDigitC_ne (c : Char) (h : isDigitC c = true) :
    c ≠ '"' ∧ c ≠ '\\' ∧ c ≠ '[' ∧ c ≠ '{' ∧ c ≠ '-' ∧ c ≠ ']' ∧ c ≠ '}'
      ∧ c ≠ ',' ∧ c ≠ 'n' ∧ c ≠ 't' ∧ c ≠ 'f' := by
  simp only [isDigitC, Bool.and_eq_true, decide_eq_true_eq] at h
  refine ⟨?_, ?_, ?_, ?_, ?_, ?_, ?_, ?_, ?_, ?_, ?_⟩ <;>
    (rintro rfl; revert h; decide)

theorem escapeChar_roundtrip (c : Char) (s2 rest : List Char)
    (ih : parseStrChars (escapeStr s2 ++ '"' :: rest) = some (s2, rest)) :
    parseStrChars ((escapeChar c ++ escapeStr s2) ++ '"' :: rest)
      = some (c :: s2, rest) := by
  by_cases hq : c = '"'
  · subst hq
    simp [escapeChar, parseStrChars, parseEsc, ih]
  · by_cases hb : c = '\\'
    · subst hb
      simp [escapeChar, parseStrChars, parseEsc, ih]
    · by_cases hc : c.toNat < 32
      · have h16 : c.toNat % 16 < 16 := Nat.mod_lt _ (by omega)
        have h2 : c.toNat / 16 < 16 := by omega
        have hv0 : hexVal '0' = some 0 := by decide
        simp only [escapeChar, if_neg hq, if_neg hb, if_pos hc, List.cons_append,
          List.nil_append]
        simp only [parseStrChars, parseEsc, parseHex4, hv0,
          hexVal_hexDigitChar h2, hexVal_hexDigitChar h16, ih]
        norm_num
        have harith : (c.toNat / 16) * 16 + c.toNat % 16 = c.toNat := by omega
        simp [harith, Char.ofNat_toNat, ih]
      · simp only [escapeChar, if_neg hq, if_neg hb, if_neg hc, List.cons_append,
          List.nil_append]
        simp [parseStrChars, hq, hb, ih]

theorem parseStrChars_escape (s rest : List Char) :
    parseStrChars (escapeStr s ++ '"' :: rest) = some (s, rest) := by
  induction s with
  | nil => simp [escapeStr, parseStrChars]
  | cons c s2 ih =>
    have := escapeChar_roundtrip c s2 rest ih
    simpa [escapeStr, List.append_assoc] using this

theorem serNum_shape (z : Int) :
    ∃ c cs, serNum z = c :: cs ∧ (c = '-' ∨ isDigitC c = true) := by
  rw [serNum]
  split
  · exact ⟨'-', _, rfl, Or.inl rfl⟩
  · obtain ⟨c, cs, hc⟩ := List.exists_cons_of_ne_nil (natDigits_ne_nil z.toNat)
    refine ⟨c, cs, hc, Or.inr ?_⟩
    exact natDigits_digits z.toNat c (by rw [hc]; simp)

theorem serV_shape (v : JValue) :
    ∃ c cs, serV v = c :: cs ∧ c ≠ ']' ∧ c ≠ '}' ∧ c ≠ ',' := by
  cases v with
  | num z =>
    obtain ⟨c, cs, hc, hd⟩ := serNum_shape z
    refine ⟨c, cs, by simp [serV, hc], ?_, ?_, ?_⟩ <;>
      (rcases hd with rfl | hd
       · decide
       · have := isDigitC_ne c hd
         tauto)
  | bool b =>
    cases b with
    | true => refine ⟨'t', _, rfl, ?_, ?_, ?_⟩ <;> decide
    | false => refine ⟨'f', _, rfl, ?_, ?_, ?_⟩ <;> decide
  | null => refine ⟨'n', _, rfl, ?_, ?_, ?_⟩ <;> decide
  | str s => refine ⟨'"', _, rfl, ?_, ?_, ?_⟩ <;> decide
  | arr xs => refine ⟨'[', _, rfl, ?_, ?_, ?_⟩ <;> decide
  | obj kvs => refine ⟨'{', _, rfl, ?_, ?_, ?_⟩ <;> decide

theorem sizeV_pos (v : JValue) : 0 < sizeV v := by
  cases v <;> simp [sizeV]

theorem sizeL_pos (xs : List JValue) : 0 < sizeL xs := by
  cases xs <;> simp [sizeL]

theorem sizeKV_pos (kvs : List (String × JValue)) : 0 < sizeKV kvs := by
  cases kvs with
  | nil => simp [sizeKV]
  | cons kv kvs => obtain ⟨k, v⟩ := kv; simp [sizeKV]

theorem headNotDigit_cons (c : Char) (r : List Char) :
    headNotDigit (c :: r) = !(isDigitC c) := rfl

theorem parse_ser (f : Nat) :
    (∀ (v : JValue) (rest : List Char), sizeV v ≤ f → headNotDigit rest = true →
      parseVal f (serV v ++ rest) = some (v, rest))
  ∧ (∀ (xs : List JValue) (rest : List Char), sizeL xs ≤ f →
      parseElems f (serItems xs ++ ']' :: rest) = some (xs, rest))
  ∧ (∀ (kvs : List (String × JValue)) (rest : List Char), sizeKV kvs ≤ f →
      parseFields f (serFields kvs ++ '}' :: rest) = some (kvs, rest)) := by
  induction f with
  | zero =>
    refine ⟨?_, ?_, ?_⟩
    · intro v rest h _
      exact absurd h (by have := sizeV_pos v; omega)
    · intro xs rest h
      exact absurd h (by have := sizeL_pos xs; omega)
    · intro kvs rest h
      exact absurd h (by have := sizeKV_pos kvs; omega)
  | succ f ih =>
    obtain ⟨ihV, ihL, ihKV⟩ := ih
    refine ⟨?_, ?_, ?_⟩
    · -- values
      intro v rest hs hr
      cases v with
      | null =>
        simp [serV, parseVal, dropLit]
        decide
      | bool b =>
        cases b <;> (simp [serV, parseVal, dropLit]; decide)
      | num z =>
        by_cases hz : z < 0
        · have hser : serV (JValue.num z) = '-' :: natDigits z.natAbs := by
            simp [serV, serNum, if_pos hz]
          rw [hser]
          simp only [List.cons_append, parseVal]
          rw [if_pos trivial]
          rw [parseNatChars_natDigits _ _ hr]
          have hz2 : (-(z.natAbs : Int)) = z := by omega
          show some (JValue.num (-(z.natAbs : Int)), rest) = some (JValue.num z, rest)
          rw [hz2]
        · have hser : serV (JValue.num z) = natDigits z.toNat := by
            simp [serV, serNum, if_neg hz]
          obtain ⟨c, cs, hc⟩ := List.exists_cons_of_ne_nil (natDigits_ne_nil z.toNat)
          have hd : isDigitC c = true := natDigits_digits z.toNat c (by rw [hc]; simp)
          obtain ⟨hq, hbs, hbr, hbc, hmn, _, _, _, _, _, _⟩ := isDigitC_ne c hd
          rw [hser, hc]
          simp only [List.cons_append, parseVal]
          rw [if_neg hq, if_neg hbr, if_neg hbc, if_neg hmn, if_pos hd]
          have : c :: (cs ++ rest) = natDigits z.toNat ++ rest := by rw [hc]; simp
          rw [this, parseNatChars_natDigits _ _ hr]
          have hz2 : ((z.toNat : Nat) : Int) = z := by omega
          show some (JValue.num ((z.toNat : Nat) : Int), rest) = some (JValue.num z, rest)
          rw [hz2]
      | str s =>
        obtain ⟨d⟩ := s
        have hser : serV (JValue.str (String.mk d)) ++ rest
            = '"' :: (escapeStr d ++ '"' :: rest) := by
          simp [serV]
        rw [hser]
        simp only [parseVal]
        rw [if_pos trivial, parseStrChars_escape]
        rfl
      | arr xs =>
        have hser : serV (JValue.arr xs) ++ rest
            = '[' :: (serItems xs ++ ']' :: rest) := by
          simp [serV]
        rw [hser]
        simp only [parseVal]
        rw [if_pos trivial]
        rw [ihL xs rest (by simp [sizeV] at hs; omega)]
        rfl
      | obj kvs =>
        have hser : serV (JValue.obj kvs) ++ rest
            = '{' :: (serFields kvs ++ '}' :: rest) := by
          simp [serV]
        rw [hser]
        simp only [parseVal]
        rw [if_pos trivial]
        rw [ihKV kvs rest (by simp [sizeV] at hs; omega)]
        rfl
    · -- array items
      intro xs rest hs
      cases xs with
      | nil => simp [serItems, parseElems]
      | cons x xs2 =>
        obtain ⟨c, cs, hc, hne1, hne2, hne3⟩ := serV_shape x
        cases xs2 with
        | nil =>
          have hsx : sizeV x ≤ f := by simp [sizeL] at hs; omega
          have h1 : serItems [x] ++ ']' :: rest = c :: (cs ++ ']' :: rest) := by
            rw [serItems, hc]; simp
          rw [h1]
          simp only [parseElems]
          rw [if_neg hne1]
          have h2 : c :: (cs ++ ']' :: rest) = serV x ++ ']' :: rest := by
            rw [hc]; simp
          rw [h2, ihV x (']' :: rest) hsx (by rw [headNotDigit_cons]; decide)]
          rfl
        | cons y ys =>
          have hsx : sizeV x ≤ f := by simp [sizeL] at hs; omega
          have hsy : sizeL (y :: ys) ≤ f := by
            have := sizeV_pos x
            simp [sizeL] at hs ⊢
            omega
          have h1 : serItems (x :: y :: ys) ++ ']' :: rest
              = c :: (cs ++ ',' :: (serItems (y :: ys) ++ ']' :: rest)) := by
            show (serV x ++ ',' :: serItems (y :: ys)) ++ ']' :: rest = _
            rw [hc]; simp
          rw [h1]
          simp only [parseElems]
          rw [if_neg hne1]
          have h2 : c :: (cs ++ ',' :: (serItems (y :: ys) ++ ']' :: rest))
              = serV x ++ ',' :: (serItems (y :: ys) ++ ']' :: rest) := by
            rw [hc]; simp
          rw [h2, ihV x _ hsx (by rw [headNotDigit_cons]; decide)]
          conv_lhs => whnf
          rw [ihL (y :: ys) rest hsy]
    · -- object fields
      intro kvs rest hs
      cases kvs with
      | nil => simp [serFields, parseFields]
      | cons kv kvs2 =>
        obtain ⟨k, v⟩ := kv
        obtain ⟨kd⟩ := k
        cases kvs2 with
        | nil =>
          have hsv : sizeV v ≤ f := by simp [sizeKV] at hs; omega
          have h1 : serFields [(String.mk kd, v)] ++ '}' :: rest
              = '"' :: (escapeStr kd ++ '"' :: (':' :: (serV v ++ '}' :: rest))) := by
            rw [serFields]; simp
          rw [h1]
          simp only [parseFields]
          rw [if_neg (show ¬('"' = '}') by decide), if_pos trivial, parseStrChars_escape]
          conv_lhs => whnf
          rw [ihV v ('}' :: rest) hsv (by rw [headNotDigit_cons]; decide)]
          rfl
        | cons kv2 kvs3 =>
          obtain ⟨k2, v2⟩ := kv2
          have hsv : sizeV v ≤ f := by simp [sizeKV] at hs; omega
          have hsr : sizeKV ((k2, v2) :: kvs3) ≤ f := by
            have := sizeV_pos v
            simp [sizeKV] at hs ⊢
            omega
          have h1 : serFields ((String.mk kd, v) :: (k2, v2) :: kvs3) ++ '}' :: rest
              = '"' :: (escapeStr kd ++ '"' :: (':'
                  :: (serV v ++ ',' :: (serFields ((k2, v2) :: kvs3) ++ '}' :: rest)))) := by
            show (('"' :: (escapeStr (String.mk kd).data ++ '"' :: ':' :: serV v))
              ++ ',' :: serFields ((k2, v2) :: kvs3)) ++ '}' :: rest = _
            simp
          rw [h1]
          simp only [parseFields]
          rw [if_neg (show ¬('"' = '}') by decide), if_pos trivial, parseStrChars_escape]
          conv_lhs => whnf
          rw [ihV v _ hsv (by rw [headNotDigit_cons]; decide)]
          conv_lhs => whnf
          rw [ihKV ((k2, v2) :: kvs3) rest hsr]

mutual

theorem sizeV_le (v : JValue) : sizeV v + 1 ≤ 2 * (serV v).length := by
  cases v with
  | null => simp [serV, sizeV]
  | bool b => cases b <;> simp [serV, sizeV]
  | num z =>
    obtain ⟨c, cs, hc, _⟩ := serNum_shape z
    simp [serV, sizeV, hc]
  | str s => simp [serV, sizeV]
  | arr xs =>
    have h := sizeL_le xs
    simp only [serV, sizeV, List.length_cons, List.length_append, List.length_singleton]
    omega
  | obj kvs =>
    have h := sizeKV_le kvs
    simp only [serV, sizeV, List.length_cons, List.length_append, List.length_singleton]
    omega

theorem sizeL_le (xs : List JValue) : sizeL xs ≤ 2 * (serItems xs).length + 1 := by
  cases xs with
  | nil => simp [sizeL, serItems]
  | cons x xs2 =>
    have hx := sizeV_le x
    cases xs2 with
    | nil =>
      simp only [sizeL, serItems]
      omega
    | cons y ys =>
      have hr := sizeL_le (y :: ys)
      have hd : sizeL (y :: ys) = 1 + sizeV y + sizeL ys := rfl
      simp only [sizeL, serItems, List.length_append, List.length_cons]
      omega

theorem sizeKV_le (kvs : List (String × JValue)) :
    sizeKV kvs ≤ 2 * (serFields kvs).length + 1 := by
  cases kvs with
  | nil => simp [sizeKV, serFields]
  | cons kv kvs2 =>
    obtain ⟨k, v⟩ := kv
    have hv := sizeV_le v
    cases kvs2 with
    | nil =>
      simp only [sizeKV, serFields, List.length_cons, List.length_append]
      omega
    | cons kv2 kvs3 =>
      have hr := sizeKV_le (kv2 :: kvs3)
      have hd : sizeKV (kv2 :: kvs3) = 1 + sizeV kv2.2 + sizeKV kvs3 := rfl
      simp only [sizeKV, serFields, List.length_cons, List.length_append]
      omega

end

theorem parseVal_serV (v : JValue) (f : Nat) (h : sizeV v ≤ f) :
    parseVal f (serV v) = some (v, []) := by
  have := (parse_ser f).1 v [] h rfl
  simpa using this

theorem parseLine_serializeLine (v : JValue) :
    parseLine (serializeLine v) = some v := by
  have hf : sizeV v ≤ 2 * (serV v).length + 2 := by
    have := sizeV_le v
    omega
  have h := parseVal_serV v (2 * (serV v).length + 2) hf
  rw [parseLine]
  have hdata : (serializeLine v).data = serV v := rfl
  rw [hdata, h]

theorem isDigitC_ne_nl {c : Char} (h : isDigitC c = true) : c ≠ '\n' := by
  rintro rfl
  revert h
  decide

theorem natDigits_no_nl (n : Nat) : ∀ c ∈ natDigits n, c ≠ '\n' :=
  fun c hc => isDigitC_ne_nl (natDigits_digits n c hc)

theorem hexDigitChar_ne_nl (d : Nat) : hexDigitChar d ≠ '\n' := by
  unfold hexDigitChar
  split <;> decide

theorem escapeChar_no_nl (c : Char) : ∀ c2 ∈ escapeChar c, c2 ≠ '\n' := by
  intro c2 hc2
  unfold escapeChar at hc2
  split at hc2
  · simp only [List.mem_cons, List.not_mem_nil, or_false] at hc2
    rcases hc2 with rfl | rfl <;> decide
  · split at hc2
    · simp only [List.mem_cons, List.not_mem_nil, or_false] at hc2
      rcases hc2 with rfl | rfl <;> decide
    · split at hc2
      · simp only [List.mem_cons, List.not_mem_nil, or_false] at hc2
        rcases hc2 with rfl | rfl | rfl | rfl | rfl | rfl
        · decide
        · decide
        · decide
        · decide
        · exact hexDigitChar_ne_nl _
        · exact hexDigitChar_ne_nl _
      · simp only [List.mem_cons, List.not_mem_nil, or_false] at hc2
        subst hc2
        rename_i hq hb hctl
        intro hnl
        subst hnl
        exact hctl (by decide)

theorem escapeStr_no_nl (s : List Char) : ∀ c ∈ escapeStr s, c ≠ '\n' := by
  induction s with
  | nil => simp [escapeStr]
  | cons c cs ih =>
    intro c2 hc2
    rcases List.mem_append.mp hc2 with h | h
    · exact escapeChar_no_nl c c2 h
    · exact ih c2 h

theorem serNum_no_nl (z : Int) : ∀ c ∈ serNum z, c ≠ '\n' := by
  intro c hc
  rw [serNum] at hc
  split at hc
  · rcases List.mem_cons.mp hc with rfl | h
    · decide
    · exact natDigits_no_nl _ c h
  · exact natDigits_no_nl _ c hc

mutual

theorem serV_no_nl (v : JValue) : ∀ c ∈ serV v, c ≠ '\n' := by
  cases v with
  | null =>
    intro c hc
    simp only [serV, List.mem_cons, List.not_mem_nil, or_false] at hc
    rcases hc with rfl | rfl | rfl | rfl <;> decide
  | bool b =>
    cases b <;>
      (intro c hc
       simp only [serV, List.mem_cons, List.not_mem_nil, or_false] at hc
       first
       | (rcases hc with rfl | rfl | rfl | rfl | rfl <;> decide)
       | (rcases hc with rfl | rfl | rfl | rfl <;> decide))
  | num z =>
    intro c hc
    exact serNum_no_nl z c hc
  | str s =>
    intro c hc
    simp only [serV, List.mem_cons, List.mem_append, List.not_mem_nil,
      or_false] at hc
    rcases hc with rfl | h | rfl
    · decide
    · exact escapeStr_no_nl s.data c h
    · decide
  | arr xs =>
    intro c hc
    simp only [serV, List.mem_cons, List.mem_append, List.not_mem_nil,
      or_false] at hc
    rcases hc with rfl | h | rfl
    · decide
    · exact serItems_no_nl xs c h
    · decide
  | obj kvs =>
    intro c hc
    simp only [serV, List.mem_cons, List.mem_append, List.not_mem_nil,
      or_false] at hc
    rcases hc with rfl | h | rfl
    · decide
    · exact serFields_no_nl kvs c h
    · decide

theorem serItems_no_nl (xs : List JValue) : ∀ c ∈ serItems xs, c ≠ '\n' := by
  cases xs with
  | nil => simp [serItems]
  | cons x xs2 =>
    cases xs2 with
    | nil =>
      intro c hc
      have heq : serItems [x] = serV x := rfl
      rw [heq] at hc
      exact serV_no_nl x c hc
    | cons y ys =>
      intro c hc
      have heq : serItems (x :: y :: ys) = serV x ++ ',' :: serItems (y :: ys) := rfl
      rw [heq] at hc
      rcases List.mem_append.mp hc with h | h
      · exact serV_no_nl x c h
      · rcases List.mem_cons.mp h with rfl | h2
        · decide
        · exact serItems_no_nl (y :: ys) c h2

theorem serFields_no_nl (kvs : List (String × JValue)) :
    ∀ c ∈ serFields kvs, c ≠ '\n' := by
  cases kvs with
  | nil => simp [serFields]
  | cons kv kvs2 =>
    obtain ⟨k, v⟩ := kv
    cases kvs2 with
    | nil =>
      intro c hc
      have heq : serFields [(k, v)]
          = '"' :: (escapeStr k.data ++ '"' :: ':' :: serV v) := rfl
      rw [heq] at hc
      rcases List.mem_cons.mp hc with rfl | h
      · decide
      · rcases List.mem_append.mp h with h2 | h2
        · exact escapeStr_no_nl k.data c h2
        · rcases List.mem_cons.mp h2 with rfl | h3
          · decide
          · rcases List.mem_cons.mp h3 with rfl | h4
            · decide
            · exact serV_no_nl v c h4
    | cons kv2 kvs3 =>
      intro c hc
      have heq : serFields ((k, v) :: kv2 :: kvs3)
          = ('"' :: (escapeStr k.data ++ '"' :: ':' :: serV v))
              ++ ',' :: serFields (kv2 :: kvs3) := rfl
      rw [heq] at hc
      rcases List.mem_append.mp hc with h | h
      · rcases List.mem_cons.mp h with rfl | h2
        · decide
        · rcases List.mem_append.mp h2 with h3 | h3
          · exact escapeStr_no_nl k.data c h3
          · rcases List.mem_cons.mp h3 with rfl | h4
            · decide
            · rcases List.mem_cons.mp h4 with rfl | h5
              · decide
              · exact serV_no_nl v c h5
      · rcases List.mem_cons.mp h with rfl | h2
        · decide
        · exact serFields_no_nl (kv2 :: kvs3) c h2

end

theorem serializeLine_no_nl (v : JValue) :
    ∀ c ∈ (serializeLine v).data, c ≠ '\n' := by
  intro c hc
  exact serV_no_nl v c hc

theorem parseNatChars_natDigits_nil (n : Nat) :
    parseNatChars (natDigits n) = some (n, []) := by
  have h := parseNatChars_natDigits n [] rfl
  simpa using h

theorem intOfString_stringOfInt (z : Int) : intOfString (stringOfInt z) = some z := by
  rw [stringOfInt, serNum]
  split
  · rename_i hz
    rw [intOfString]
    dsimp only
    rw [if_pos rfl, parseNatChars_natDigits_nil]
    have hz2 : (-(z.natAbs : Int)) = z := by omega
    show some (-(z.natAbs : Int)) = some z
    rw [hz2]
  · rename_i hz
    obtain ⟨c, cs, hc⟩ := List.exists_cons_of_ne_nil (natDigits_ne_nil z.toNat)
    have hdig : isDigitC c = true := natDigits_digits z.toNat c (by rw [hc]; simp)
    obtain ⟨_, _, _, _, hmn, _, _, _, _, _, _⟩ := isDigitC_ne c hdig
    rw [hc, intOfString]
    dsimp only
    rw [if_neg hmn, ← hc, parseNatChars_natDigits_nil]
    have hz2 : ((z.toNat : Nat) : Int) = z := by omega
    show some ((z.toNat : Nat) : Int) = some z
    rw [hz2]

theorem intOfStringD_stringOfInt (z : Int) :
    intOfStringD (some (stringOfInt z)) = z := by
  rw [intOfStringD, intOfString_stringOfInt]
  rfl

theorem storeSet_same (st : Store) (k : String) (v : Option String) :
    storeSet st k v k = v := by
  simp [storeSet]

theorem storeSet_other (st : Store) (k k2 : String) (v : Option String)
    (h : k2 ≠ k) : storeSet st k v k2 = st k2 := by
  simp [storeSet, h]

theorem sandboxedKey_ne_countKey (pfx sid k : String) :
    sandboxedKey pfx sid k ≠ countKey pfx sid := by
  intro h
  have hd := congrArg String.data h
  have h1 : (":sandboxes:" : String).data
      = [':', 's', 'a', 'n', 'd', 'b', 'o', 'x', 'e', 's', ':'] := rfl
  have h2 : (":count:" : String).data = [':', 'c', 'o', 'u', 'n', 't', ':'] := rfl
  have h3 : (":" : String).data = [':'] := rfl
  simp only [sandboxedKey, countKey, String.data_append, h1, h2, h3,
    List.append_assoc, List.cons_append, List.nil_append] at hd
  rw [List.append_right_inj] at hd
  simp at hd

theorem getField_mkReply_success (m : JValue) (b : Bool)
    (extra : List (String × JValue)) :
    getField (mkReply m b extra) "success" = some (JValue.bool b) := by
  simp [mkReply, getField, lookupA]

theorem getField_mkReply_cmd_id (m : JValue) (b : Bool)
    (extra : List (String × JValue)) :
    getField (mkReply m b extra) "cmd_id" = some (cmdIdOf m) := by
  simp [mkReply, getField, lookupA]

theorem getField_mkReply_value (m : JValue) (b : Bool) (v : JValue) :
    getField (mkReply m b [("value", v)]) "value" = some v := by
  simp [mkReply, getField, lookupA]

theorem getField_mkReply_existed (m : JValue) (b : Bool) (e : Bool) :
    getField (mkReply m b [("existed", JValue.bool e)]) "existed"
      = some (JValue.bool e) := by
  simp [mkReply, getField, lookupA]

theorem cmdOf_mkCmd (c cid : String) (args : List (String × JValue)) :
    cmdOf (mkCmd c cid args) = c := by
  simp [cmdOf, mkCmd, getField, lookupA]

theorem redis_set_eval (pfx sid cid k : String) (v : JValue) (st : Store) :
    redisDispatchRequest pfx sid st
        (mkCmd "set" cid [("key", JValue.str k), ("value", v)])
      = (storeSet (storeSet st (sandboxedKey pfx sid k) (some (serializeLine v)))
           (countKey pfx sid)
           (some (stringOfInt (intOfStringD (st (countKey pfx sid)) + 1))),
         mkReply (mkCmd "set" cid [("key", JValue.str k), ("value", v)]) true []) := by
  have hcmd := cmdOf_mkCmd "set" cid [("key", JValue.str k), ("value", v)]
  have hact : actionOf "set" = "set" := rfl
  have hk : getField (mkCmd "set" cid [("key", JValue.str k), ("value", v)]) "key"
      = some (JValue.str k) := by simp [mkCmd, getField, lookupA]
  have hv : getField (mkCmd "set" cid [("key", JValue.str k), ("value", v)]) "value"
      = some v := by simp [mkCmd, getField, lookupA]
  rw [redisDispatchRequest]
  rw [hcmd, hact]
  rw [if_pos rfl, hk, hv]

theorem redis_get_eval_missing (pfx sid cid k : String) (st : Store)
    (h : st (sandboxedKey pfx sid k) = none) :
    redisDispatchRequest pfx sid st (mkCmd "get" cid [("key", JValue.str k)])
      = (st, mkReply (mkCmd "get" cid [("key", JValue.str k)]) true
          [("value", JValue.null)]) := by
  have hcmd := cmdOf_mkCmd "get" cid [("key", JValue.str k)]
  have hact : actionOf "get" = "get" := rfl
  have hk : getField (mkCmd "get" cid [("key", JValue.str k)]) "key"
      = some (JValue.str k) := by simp [mkCmd, getField, lookupA]
  rw [redisDispatchRequest, hcmd, hact]
  rw [if_neg (by decide : ¬("get" = "set")), if_pos rfl, hk]
  dsimp only
  rw [h]

theorem redis_get_eval_found (pfx sid cid k : String) (st : Store) (s : String)
    (v : JValue) (h : st (sandboxedKey pfx sid k) = some s)
    (hp : parseLine s = some v) :
    redisDispatchRequest pfx sid st (mkCmd "get" cid [("key", JValue.str k)])
      = (st, mkReply (mkCmd "get" cid [("key", JValue.str k)]) true
          [("value", v)]) := by
  have hcmd := cmdOf_mkCmd "get" cid [("key", JValue.str k)]
  have hact : actionOf "get" = "get" := rfl
  have hk : getField (mkCmd "get" cid [("key", JValue.str k)]) "key"
      = some (JValue.str k) := by simp [mkCmd, getField, lookupA]
  rw [redisDispatchRequest, hcmd, hact]
  rw [if_neg (by decide : ¬("get" = "set")), if_pos rfl, hk]
  dsimp only
  rw [h]
  dsimp only
  rw [hp]

theorem redis_delete_eval (pfx sid cid k : String) (st : Store) :
    redisDispatchRequest pfx sid st (mkCmd "delete" cid [("key", JValue.str k)])
      = ((if (st (sandboxedKey pfx sid k)).isSome then
            storeSet (storeSet st (sandboxedKey pfx sid k) none) (countKey pfx sid)
              (some (stringOfInt (intOfStringD (st (countKey pfx sid)) - 1)))
          else storeSet st (sandboxedKey pfx sid k) none),
         mkReply (mkCmd "delete" cid [("key", JValue.str k)]) true
           [("existed", JValue.bool (st (sandboxedKey pfx sid k)).isSome)]) := by
  have hcmd := cmdOf_mkCmd "delete" cid [("key", JValue.str k)]
  have hact : actionOf "delete" = "delete" := rfl
  have hk : getField (mkCmd "delete" cid [("key", JValue.str k)]) "key"
      = some (JValue.str k) := by simp [mkCmd, getField, lookupA]
  rw [redisDispatchRequest, hcmd, hact]
  rw [if_neg (by decide : ¬("delete" = "set")),
    if_neg (by decide : ¬("delete" = "get")), if_pos rfl, hk]

/-- C2: for every well-formed Command Message m (fields limited to strings,
numbers, booleans, null, and nested mappings/sequences of the same),
parse(serialize(m)) == m, and serialize(m) is exactly one line of text
containing no embedded line breaks. -/
theorem claim2_roundtrip_one_line (m : JValue) (h : isCmdMsg m = true) :
    parseCmdMsg (serializeLine m) = some m
      ∧ ∀ c ∈ (serializeLine m).data, c ≠ '\n' := by
  constructor
  · rw [parseCmdMsg, parseLine_serializeLine]
    dsimp only
    rw [if_pos h]
  · exact serializeLine_no_nl m

/-- Witness for C2 at a concrete Command Message. -/
theorem claim2_witness :
    isCmdMsg (JValue.obj [("cmd", JValue.str "db.set"),
        ("cmd_id", JValue.str "abc123")]) = true
    ∧ (parseCmdMsg (serializeLine (JValue.obj [("cmd", JValue.str "db.set"),
          ("cmd_id", JValue.str "abc123")]))
        = some (JValue.obj [("cmd", JValue.str "db.set"),
            ("cmd_id", JValue.str "abc123")])
      ∧ ∀ c ∈ (serializeLine (JValue.obj [("cmd", JValue.str "db.set"),
          ("cmd_id", JValue.str "abc123")])).data, c ≠ '\n') :=
  ⟨by decide, claim2_roundtrip_one_line _ (by decide)⟩

/-- C5: for every sandbox identifier S, key k, value v and configured
storage name P, dispatching set(key=k, value=v) replies success = true,
stores the JSON serialization of v under P:sandboxes:S:k, and increments
the counter key P:count:S (after one set from a fresh state the counter
equals 1). -/
theorem claim5_redis_set (pfx sid cid k : String) (v : JValue) (st : Store) :
    (redisDispatchRequest pfx sid st
        (mkCmd "set" cid [("key", JValue.str k), ("value", v)])).1
        (sandboxedKey pfx sid k) = some (serializeLine v)
  ∧ intOfStringD ((redisDispatchRequest pfx sid st
        (mkCmd "set" cid [("key", JValue.str k), ("value", v)])).1
        (countKey pfx sid))
      = intOfStringD (st (countKey pfx sid)) + 1
  ∧ getField (redisDispatchRequest pfx sid st
        (mkCmd "set" cid [("key", JValue.str k), ("value", v)])).2 "success"
      = some (JValue.bool true)
  ∧ (st (countKey pfx sid) = none →
      (redisDispatchRequest pfx sid st
          (mkCmd "set" cid [("key", JValue.str k), ("value", v)])).1
          (countKey pfx sid) = some "1") := by
  rw [redis_set_eval]
  refine ⟨?_, ?_, ?_, ?_⟩
  · dsimp only
    rw [storeSet_other _ _ _ _ (sandboxedKey_ne_countKey pfx sid k), storeSet_same]
  · dsimp only
    rw [storeSet_same, intOfStringD_stringOfInt]
  · exact getField_mkReply_success _ _ _
  · intro h
    dsimp only
    rw [storeSet_same, h]
    have h0 : intOfStringD none + 1 = 1 := rfl
    rw [h0]
    have h1 : stringOfInt 1 = "1" := by
      rw [stringOfInt, serNum]
      norm_num
      rw [natDigits]
      norm_num
      rfl
    rw [h1]

/-- Witness for C5: one set from a fresh state leaves the counter at 1. -/
theorem claim5_witness :
    emptyStore (countKey "test" "sandbox1") = none
    ∧ (redisDispatchRequest "test" "sandbox1" emptyStore
        (mkCmd "set" "1" [("key", JValue.str "foo"), ("value", JValue.num 1)])).1
        (countKey "test" "sandbox1") = some "1" :=
  ⟨rfl, (claim5_redis_set "test" "sandbox1" "1" "foo" (JValue.num 1)
    emptyStore).2.2.2 rfl⟩

/-- C6: dispatching delete(key=k) replies success = true with an existed
boolean equal to whether the scoped storage key was present, removes that
storage key, and decrements the per-sandbox counter exactly when the key
was actually removed. -/
theorem claim6_redis_delete (pfx sid cid k : String) (st : Store) :
    getField (redisDispatchRequest pfx sid st
        (mkCmd "delete" cid [("key", JValue.str k)])).2 "success"
      = some (JValue.bool true)
  ∧ getField (redisDispatchRequest pfx sid st
        (mkCmd "delete" cid [("key", JValue.str k)])).2 "existed"
      = some (JValue.bool (st (sandboxedKey pfx sid k)).isSome)
  ∧ (redisDispatchRequest pfx sid st
        (mkCmd "delete" cid [("key", JValue.str k)])).1
        (sandboxedKey pfx sid k) = none
  ∧ ((st (sandboxedKey pfx sid k)).isSome = true →
      intOfStringD ((redisDispatchRequest pfx sid st
          (mkCmd "delete" cid [("key", JValue.str k)])).1 (countKey pfx sid))
        = intOfStringD (st (countKey pfx sid)) - 1)
  ∧ ((st (sandboxedKey pfx sid k)).isSome = false →
      (redisDispatchRequest pfx sid st
          (mkCmd "delete" cid [("key", JValue.str k)])).1 (countKey pfx sid)
        = st (countKey pfx sid)) := by
  rw [redis_delete_eval]
  refine ⟨?_, ?_, ?_, ?_, ?_⟩
  · dsimp only
    exact getField_mkReply_success _ _ _
  · dsimp only
    exact getField_mkReply_existed _ _ _
  · dsimp only
    by_cases he : (st (sandboxedKey pfx sid k)).isSome
    · rw [if_pos he]
      rw [storeSet_other _ _ _ _ (sandboxedKey_ne_countKey pfx sid k), storeSet_same]
    · rw [if_neg he, storeSet_same]
  · intro he
    dsimp only
    rw [if_pos he, storeSet_same, intOfStringD_stringOfInt]
  · intro he
    dsimp only
    rw [if_neg (by rw [he]; exact Bool.false_ne_true)]
    exact storeSet_other _ _ _ _ (Ne.symm (sandboxedKey_ne_countKey pfx sid k))

/-- Witness for C6: deleting an existing key with counter 1 reports
existed and leaves the counter at 0. -/
theorem claim6_witness :
    ((storeSet (storeSet emptyStore (sandboxedKey "test" "test_id" "foo")
        (some "x")) (countKey "test" "test_id") (some "1"))
        (sandboxedKey "test" "test_id" "foo")).isSome = true
    ∧ intOfStringD ((redisDispatchRequest "test" "test_id"
        (storeSet (storeSet emptyStore (sandboxedKey "test" "test_id" "foo")
          (some "x")) (countKey "test" "test_id") (some "1"))
        (mkCmd "delete" "1" [("key", JValue.str "foo")])).1
        (countKey "test" "test_id"))
      = intOfStringD ((storeSet (storeSet emptyStore
          (sandboxedKey "test" "test_id" "foo") (some "x"))
          (countKey "test" "test_id") (some "1")) (countKey "test" "test_id")) - 1
    ∧ intOfStringD ((storeSet (storeSet emptyStore
          (sandboxedKey "test" "test_id" "foo") (some "x"))
          (countKey "test" "test_id") (some "1")) (countKey "test" "test_id")) - 1
        = 0 :=
  ⟨by decide,
   (claim6_redis_delete "test" "test_id" "1" "foo" _).2.2.2.1 (by decide),
   by decide⟩

/-- C7: dispatching get on a key that is absent from the scoped storage
replies success = true with a null value and leaves the store unchanged; a
missing key is not an error. -/
theorem claim7_redis_get_missing (pfx sid cid k : String) (st : Store)
    (h : st (sandboxedKey pfx sid k) = none) :
    getField (redisDispatchRequest pfx sid st
        (mkCmd "get" cid [("key", JValue.str k)])).2 "success"
      = some (JValue.bool true)
  ∧ getField (redisDispatchRequest pfx sid st
        (mkCmd "get" cid [("key", JValue.str k)])).2 "value"
      = some JValue.null
  ∧ (redisDispatchRequest pfx sid st
        (mkCmd "get" cid [("key", JValue.str k)])).1 = st := by
  rw [redis_get_eval_missing pfx sid cid k st h]
  exact ⟨getField_mkReply_success _ _ _, getField_mkReply_value _ _ _, rfl⟩

/-- Witness for C7 at a fresh store. -/
theorem claim7_witness :
    emptyStore (sandboxedKey "test" "test_id" "foo") = none
    ∧ (getField (redisDispatchRequest "test" "test_id" emptyStore
          (mkCmd "get" "1" [("key", JValue.str "foo")])).2 "success"
        = some (JValue.bool true)
      ∧ getField (redisDispatchRequest "test" "test_id" emptyStore
          (mkCmd "get" "1" [("key", JValue.str "foo")])).2 "value"
        = some JValue.null
      ∧ (redisDispatchRequest "test" "test_id" emptyStore
          (mkCmd "get" "1" [("key", JValue.str "foo")])).1 = emptyStore) :=
  ⟨rfl, claim7_redis_get_missing "test" "test_id" "1" "foo" emptyStore rfl⟩

/-- C10: dispatching get(key=k) after a successful set(key=k, value=v) for
the same sandbox identifier returns success = true with a value equal to
the original v — values survive the JSON encoding into storage and the
decoding back out unchanged. -/
theorem claim10_get_after_set (pfx sid cid cid2 k : String) (v : JValue)
    (st : Store) :
    getField (redisDispatchRequest pfx sid
        (redisDispatchRequest pfx sid st
          (mkCmd "set" cid [("key", JValue.str k), ("value", v)])).1
        (mkCmd "get" cid2 [("key", JValue.str k)])).2 "success"
      = some (JValue.bool true)
  ∧ getField (redisDispatchRequest pfx sid
        (redisDispatchRequest pfx sid st
          (mkCmd "set" cid [("key", JValue.str k), ("value", v)])).1
        (mkCmd "get" cid2 [("key", JValue.str k)])).2 "value"
      = some v := by
  have hstore : (redisDispatchRequest pfx sid st
      (mkCmd "set" cid [("key", JValue.str k), ("value", v)])).1
      (sandboxedKey pfx sid k) = some (serializeLine v) := by
    rw [redis_set_eval]
    dsimp only
    rw [storeSet_other _ _ _ _ (sandboxedKey_ne_countKey pfx sid k), storeSet_same]
  rw [redis_get_eval_found pfx sid cid2 k _ (serializeLine v) v hstore
    (parseLine_serializeLine v)]
  exact ⟨getField_mkReply_success _ _ _, getField_mkReply_value _ _ _⟩

/-- C1: for every Command Message whose cmd matches no registered Resource
namespace (or no supported action), the dispatcher produces exactly one
fallback error report "Resource fallback: unknown command '<cmd>' received
from sandbox '<sandbox-id>'" and writes back exactly one reply with
success = false echoing the originating cmd_id, leaving the state
unchanged. -/
theorem claim1_fallback_unknown_command (reg : List (String × ResourceKind))
    (sid : String) (st : SessionSt) (m : JValue)
    (h : routeMisses reg (cmdOf m) = true) :
    (dispatchParsed reg sid st m).2.1 = [fallbackMsg (cmdOf m) sid]
  ∧ getField (dispatchParsed reg sid st m).2.2 "success"
      = some (JValue.bool false)
  ∧ getField (dispatchParsed reg sid st m).2.2 "cmd_id" = some (cmdIdOf m)
  ∧ (dispatchParsed reg sid st m).1 = st := by
  cases hL : lookupA reg (nsOf (cmdOf m)) with
  | none =>
    simp only [dispatchParsed, hL]
    exact ⟨by trivial, getField_mkReply_success _ _ _,
      getField_mkReply_cmd_id _ _ _, by trivial⟩
  | some rk =>
    rw [routeMisses, hL] at h
    simp only [Bool.not_eq_true'] at h
    simp only [dispatchParsed, hL, h, Bool.false_eq_true, if_false]
    exact ⟨by trivial, getField_mkReply_success _ _ _,
      getField_mkReply_cmd_id _ _ _, by trivial⟩

/-- Witness for C1 at the unknown command with an empty registry. -/
theorem claim1_witness :
    routeMisses ([] : List (String × ResourceKind))
        (cmdOf (JValue.obj [("cmd", JValue.str "unknown"),
          ("cmd_id", JValue.str "123")])) = true
    ∧ ((dispatchParsed [] "sandbox1" emptySt
          (JValue.obj [("cmd", JValue.str "unknown"),
            ("cmd_id", JValue.str "123")])).2.1
        = [fallbackMsg (cmdOf (JValue.obj [("cmd", JValue.str "unknown"),
            ("cmd_id", JValue.str "123")])) "sandbox1"]
      ∧ getField (dispatchParsed [] "sandbox1" emptySt
          (JValue.obj [("cmd", JValue.str "unknown"),
            ("cmd_id", JValue.str "123")])).2.2 "success"
          = some (JValue.bool false)
      ∧ getField (dispatchParsed [] "sandbox1" emptySt
          (JValue.obj [("cmd", JValue.str "unknown"),
            ("cmd_id", JValue.str "123")])).2.2 "cmd_id"
          = some (cmdIdOf (JValue.obj [("cmd", JValue.str "unknown"),
              ("cmd_id", JValue.str "123")]))
      ∧ (dispatchParsed [] "sandbox1" emptySt
          (JValue.obj [("cmd", JValue.str "unknown"),
            ("cmd_id", JValue.str "123")])).1 = emptySt) :=
  ⟨by decide, claim1_fallback_unknown_command [] "sandbox1" emptySt _ (by decide)⟩

/-- C8: dispatching reply_to with a content string and an in_reply_to
identifier and no continue/close-session flag hands off exactly one
outbound reply message with that content and no forced session-termination
flag, and the reply reports success = true with no error reports. -/
theorem claim8_outbound_reply_to (sid cid content irt : String)
    (st : SessionSt) :
    (dispatchParsed [("outbound", ResourceKind.outbound)] sid st
        (mkCmd "outbound.reply_to" cid
          [("content", JValue.str content), ("in_reply_to", JValue.str irt)])).1.outbound
      = st.outbound
        ++ [{ content := content, inReplyTo := irt, sessionEvent := none }]
  ∧ getField (dispatchParsed [("outbound", ResourceKind.outbound)] sid st
        (mkCmd "outbound.reply_to" cid
          [("content", JValue.str content), ("in_reply_to", JValue.str irt)])).2.2
      "success" = some (JValue.bool true)
  ∧ (dispatchParsed [("outbound", ResourceKind.outbound)] sid st
        (mkCmd "outbound.reply_to" cid
          [("content", JValue.str content), ("in_reply_to", JValue.str irt)])).2.1
      = [] := by
  have hcmd := cmdOf_mkCmd "outbound.reply_to" cid
    [("content", JValue.str content), ("in_reply_to", JValue.str irt)]
  have hns : nsOf "outbound.reply_to" = "outbound" := rfl
  have hact : actionOf "outbound.reply_to" = "reply_to" := rfl
  have hcont : getField (mkCmd "outbound.reply_to" cid
      [("content", JValue.str content), ("in_reply_to", JValue.str irt)])
      "content" = some (JValue.str content) := by
    simp [mkCmd, getField, lookupA]
  have hirt : getField (mkCmd "outbound.reply_to" cid
      [("content", JValue.str content), ("in_reply_to", JValue.str irt)])
      "in_reply_to" = some (JValue.str irt) := by
    simp [mkCmd, getField, lookupA]
  have hcs : getField (mkCmd "outbound.reply_to" cid
      [("content", JValue.str content), ("in_reply_to", JValue.str irt)])
      "continue_session" = none := by
    simp [mkCmd, getField, lookupA]
  have hout : outboundDispatchRequest st (mkCmd "outbound.reply_to" cid
      [("content", JValue.str content), ("in_reply_to", JValue.str irt)])
      = ({ st with outbound := st.outbound
            ++ [{ content := content, inReplyTo := irt, sessionEvent := none }] },
         mkReply (mkCmd "outbound.reply_to" cid
          [("content", JValue.str content), ("in_reply_to", JValue.str irt)])
          true []) := by
    rw [outboundDispatchRequest, hcmd, hact, if_pos rfl, hcont, hirt]
    dsimp only
    rw [hcs]
    rfl
  rw [dispatchParsed]
  rw [hcmd, hns]
  have hreg : lookupA [("outbound", ResourceKind.outbound)] "outbound"
      = some ResourceKind.outbound := by simp [lookupA]
  rw [hreg]
  dsimp only
  rw [hact]
  rw [if_pos (by decide :
    ((supportedActions ResourceKind.outbound).contains "reply_to") = true)]
  rw [hout]
  exact ⟨rfl, getField_mkReply_success _ _ _, rfl⟩

/-- C3: a Session whose child exits immediately with status 0 within the
timeout resolves with exit status 0; a Session whose child never exits is
forcibly terminated at timeout expiry and resolves with a
signal-termination result, not an exit code. -/
theorem claim3_session_exit (reg : List (String × ResourceKind)) (sid : String)
    (timeout : Nat) (st0 : SessionSt) (child : ChildBehavior) :
    (child.runTime = some 0 → child.exitCode = 0 →
      (runSession reg sid timeout st0 child).result = ExitStatus.exited 0)
  ∧ (child.runTime = none →
      (runSession reg sid timeout st0 child).result = ExitStatus.killedBySignal) := by
  constructor
  · intro h1 h2
    simp [runSession, h1, h2]
  · intro h1
    simp [runSession, h1]

/-- Witness for C3 at two concrete child behaviors. -/
theorem claim3_witness :
    (runSession [] "sandbox1" 10 emptySt
        { stdoutLines := [], stderrLines := [], runTime := some 0,
          exitCode := 0 }).result = ExitStatus.exited 0
    ∧ (runSession [] "sandbox1" 10 emptySt
        { stdoutLines := [], stderrLines := [], runTime := none,
          exitCode := 0 }).result = ExitStatus.killedBySignal :=
  ⟨(claim3_session_exit [] "sandbox1" 10 emptySt _).1 rfl rfl,
   (claim3_session_exit [] "sandbox1" 10 emptySt _).2 rfl⟩

/-- C4: a command whose handling fails (malformed line, unknown namespace
or unsupported action) never aborts the Session — the terminal result does
not depend on the standard-output lines at all — and the failure is
resolved locally into a success = false reply. -/
theorem claim4_command_errors_nonfatal (reg : List (String × ResourceKind))
    (sid : String) (timeout : Nat) (st0 : SessionSt) (child : ChildBehavior)
    (st : SessionSt) (line : String) :
    (∀ ls, (runSession reg sid timeout st0
        { child with stdoutLines := ls }).result
      = (runSession reg sid timeout st0 child).result)
  ∧ (lineFails reg line = true →
      getField (dispatchLine reg sid st line).2.2 "success"
        = some (JValue.bool false)) := by
  constructor
  · intro ls
    rfl
  · intro h
    cases hp : parseLine line with
    | none =>
      simp [dispatchLine, hp, getField, lookupA]
    | some m =>
      rw [lineFails, hp] at h
      dsimp only at h
      rw [dispatchLine, hp]
      dsimp only
      cases hL : lookupA reg (nsOf (cmdOf m)) with
      | none =>
        simp only [dispatchParsed, hL]
        exact getField_mkReply_success _ _ _
      | some rk =>
        rw [hL] at h
        simp only [Bool.not_eq_true'] at h
        simp only [dispatchParsed, hL, h, Bool.false_eq_true, if_false]
        exact getField_mkReply_success _ _ _

/-- Witness for C4 at a line with no command against an empty registry. -/
theorem claim4_witness :
    lineFails ([] : List (String × ResourceKind)) "\x7b\x7d" = true
    ∧ getField (dispatchLine [] "sandbox1" emptySt "\x7b\x7d").2.2 "success"
        = some (JValue.bool false) :=
  ⟨by decide,
   (claim4_command_errors_nonfatal [] "sandbox1" 10 emptySt
     { stdoutLines := [], stderrLines := [], runTime := none, exitCode := 0 }
     emptySt "\x7b\x7d").2 (by decide)⟩

/-- C9: every complete standard-error line produces exactly one
sandbox-diagnostic report with content equal to that line, reported
independently, and standard-error output never affects the Session's
terminal result. -/
theorem claim9_stderr_reports (reg : List (String × ResourceKind))
    (sid : String) (timeout : Nat) (st0 : SessionSt) (child : ChildBehavior) :
    (runSession reg sid timeout st0 child).stderrReports = child.stderrLines
  ∧ ∀ ls, (runSession reg sid timeout st0
        { child with stderrLines := ls }).result
      = (runSession reg sid timeout st0 child).result :=
  ⟨rfl, fun _ => rfl⟩
